import Mathlib

/-!
Verification of the autocomplete widget (searchable user directory with debounced
filtering, keyboard navigation, outside-click dismissal and match highlighting).

The development shallowly embeds the relevant program units:
* `filterUsers` — the query filter of the user directory hook (src/hooks/useUsers.ts);
* `fetchUsers` — the initial retrieval of the user collection (src/hooks/useUsers.ts);
* `highlightSegments` — the match highlighter (src/components/HighlightText.tsx);
* `handleClick` — the outside-interaction handler (src/hooks/useOutsideClick.ts);
* `step` / `run` — the search controller as an event-step machine over the state
  owned by the Autocomplete component (searchTerm, suggestions, showDropdown,
  activeIndex, plus the debounce subscription that guards stale lookups).

JavaScript strings are modelled as `String` / `List Char`; `toLowerCase` is modelled
on the ASCII fragment via `Char.toLower`. Asynchrony is modelled by explicit events:
a debounced lookup is issued with a fresh token and its completion is a `resolve`
event carrying that token, mirroring the `isSubscribed` guard of the effect cleanup.
-/

namespace Autocomplete

/-- A user record as fetched from the users endpoint (src/types/user.ts). -/
structure User where
  id : Nat
  name : String
  email : String
  username : String
  deriving DecidableEq

/-- Lowercasing of a character sequence: models String.prototype.toLowerCase on the
ASCII fragment. -/
def lower (l : List Char) : List Char := l.map Char.toLower

/-- Whether the first list occurs at the start of the second (literal, character by
character). Auxiliary for `includes`. -/
def startsWith : List Char → List Char → Bool
  | [], _ => true
  | _ :: _, [] => false
  | a :: as, b :: bs => (a == b) && startsWith as bs

/-- String.prototype.includes on character lists: true when `needle` occurs as a
contiguous substring of `hay`. -/
def includes : List Char → List Char → Bool
  | [], needle => needle.isEmpty
  | c :: rest, needle => startsWith needle (c :: rest) || includes rest needle

/-- The searchable text of one user inside filterUsers (src/hooks/useUsers.ts
lines 78-82): [user.name, user.email, user.username].join(' ').toLowerCase(). -/
def searchableText (user : User) : List Char :=
  lower (user.name.data ++ [' '] ++ user.email.data ++ [' '] ++ user.username.data)

/-- filterUsers (src/hooks/useUsers.ts lines 70-88), minus the purely temporal 300ms
UX delay: the terms are query.toLowerCase().split(' ') — a split on single space
characters — and a user is kept when every term occurs in its searchable text. -/
def filterUsers (allUsers : List User) (query : String) : List User :=
  allUsers.filter (fun user =>
    ((lower query.data).splitOn ' ').all (fun term => includes (searchableText user) term))

/-- The filter as worded in claim C2, for comparison with `filterUsers`: the terms
are the whitespace-separated words of the query and each must occur, case
insensitively, in the plain concatenation of name, email and username. -/
def filterUsersClaim (allUsers : List User) (query : String) : List User :=
  allUsers.filter (fun user =>
    (((lower query.data).splitOnP (fun c => c.isWhitespace)).filter
        (fun t => !t.isEmpty)).all
      (fun term =>
        includes (lower (user.name.data ++ user.email.data ++ user.username.data)) term))

/-! ### Match highlighter (src/components/HighlightText.tsx) -/

/-- One rendered chunk of the highlighter output: its text and whether it is wrapped
in the strong.highlight element. -/
structure Segment where
  content : List Char
  matched : Bool
  deriving DecidableEq

/-- Case-insensitive literal match of the (regex-escaped, hence literal) query at the
start of the text, as performed by the RegExp with the i flag. -/
def ciMatchesAt : List Char → List Char → Bool
  | [], _ => true
  | _ :: _, [] => false
  | q :: qs, t :: ts => (q.toLower == t.toLower) && ciMatchesAt qs ts

/-- text.split(regex) where regex is the escaped query inside a capturing group with
the g and i flags: the text is cut at each leftmost, non-overlapping, case
insensitive occurrence of the query, and the matched occurrences are kept in the
output between the plain pieces. Fuel-indexed structural recursion; `text.length`
fuel is always enough because a step consumes at least one character. -/
def splitParts (query : List Char) : Nat → List Char → List Char → List (List Char)
  | 0, text, acc => [acc.reverse ++ text]
  | fuel + 1, text, acc =>
    match text with
    | [] => [acc.reverse]
    | c :: rest =>
      if ciMatchesAt query (c :: rest) then
        acc.reverse :: (c :: rest).take query.length ::
          splitParts query fuel ((c :: rest).drop query.length) []
      else
        splitParts query fuel rest (c :: acc)

/-- The HighlightText component (src/components/HighlightText.tsx): a blank query
(the !query?.trim() guard) renders the whole text as one plain chunk; otherwise the
text is split on the query occurrences and each part is tagged by the render-time
test part.toLowerCase() === query.toLowerCase(). -/
def highlightSegments (text query : List Char) : List Segment :=
  if query.all Char.isWhitespace then
    [⟨text, false⟩]
  else
    (splitParts query text.length text []).map
      (fun part => ⟨part, lower part == lower query⟩)

/-! ### Search controller (Autocomplete component, src/unnamed/part_002 first
variant: searchTerm / suggestions / showDropdown / activeIndex, the debounced
searchTimeout effect with its isSubscribed cleanup guard, handleKeyboardNavigation
and selectUser). -/

/-- A scheduled lookup: the token identifies the effect run that issued it (the
isSubscribed closure) and `query` is the searchTerm it captured. -/
structure Pending where
  tok : Nat
  query : String
  deriving DecidableEq

/-- The component state: the four useState cells, the live debounce subscription (if
any), a fresh-token counter, and the input focus flag (for inputRef.current?.blur()).
-/
structure CState where
  searchTerm : String
  suggestions : List User
  showDropdown : Bool
  activeIndex : Int
  pending : Option Pending
  nextTok : Nat
  focused : Bool
  deriving DecidableEq

/-- Initial state of the component on mount. -/
def initState : CState :=
  { searchTerm := "", suggestions := [], showDropdown := false, activeIndex := -1,
    pending := none, nextTok := 0, focused := false }

/-- The !value?.trim() test of the effect: the string has no non-whitespace
character. -/
def isBlank (s : String) : Bool := s.data.all Char.isWhitespace

/-- Keys handled by handleKeyboardNavigation. -/
inductive Key
  | arrowDown
  | arrowUp
  | enter
  | escape
  deriving DecidableEq

/-- Discrete input events of the controller: a keystroke committing new input text, a
completion of the lookup issued with a given token, focus gain, an outside
interaction, a handled key, and pointer activation of suggestion row i. -/
inductive Event
  | input (q : String)
  | resolve (tok : Nat) (results : List User)
  | focus
  | outside
  | key (k : Key)
  | select (i : Nat)
  deriving DecidableEq

/-- Whether an event is the completion of a debounced lookup. -/
def Event.isResolve : Event → Bool
  | .resolve _ _ => true
  | _ => false

/-- The searchTerm effect body (part_002 lines 20-44) as run after searchTerm
changed: blank input clears the suggestions and closes the dropdown (and the cleanup
has cancelled any pending lookup); otherwise a lookup for the current text is
scheduled under a fresh token, superseding the previous subscription. -/
def applySearchEffect (s : CState) : CState :=
  if isBlank s.searchTerm then
    { s with suggestions := [], showDropdown := false, pending := none }
  else
    { s with pending := some ⟨s.nextTok, s.searchTerm⟩, nextTok := s.nextTok + 1 }

/-- selectUser (part_002 lines 75-80): set the input text to the chosen name, close
the dropdown, reset the cursor, blur the input; the searchTerm effect then re-runs
when the committed name differs from the previous text. -/
def selectUser (s : CState) (name : String) : CState :=
  let s1 := { s with searchTerm := name, showDropdown := false, activeIndex := -1,
                     focused := false }
  if name = s.searchTerm then s1 else applySearchEffect s1

/-- The input onChange handler (part_002 lines 94-97) followed by the effect re-run:
setSearchTerm plus setActiveIndex(-1); the effect re-runs only when the text
actually changed. -/
def stepInput (s : CState) (q : String) : CState :=
  let s1 := { s with searchTerm := q, activeIndex := -1 }
  if q = s.searchTerm then s1 else applySearchEffect s1

/-- handleKeyboardNavigation (part_002 lines 46-73): inert while the dropdown is
closed; ArrowDown and ArrowUp move the cursor clamped to the list, Enter commits a
valid selection, Escape closes and resets the cursor. -/
def stepKey (s : CState) (k : Key) : CState :=
  if !s.showDropdown then s
  else
    match k with
    | .arrowDown =>
        { s with activeIndex :=
            if s.activeIndex < (s.suggestions.length : Int) - 1 then s.activeIndex + 1
            else s.activeIndex }
    | .arrowUp =>
        { s with activeIndex := if s.activeIndex > 0 then s.activeIndex - 1 else -1 }
    | .enter =>
        if 0 ≤ s.activeIndex then
          match s.suggestions[s.activeIndex.toNat]? with
          | some user => selectUser s user.name
          | none => s
        else s
    | .escape => { s with showDropdown := false, activeIndex := -1 }

/-- One controller transition per discrete event. A resolve event applies only when
its token is the live subscription (the isSubscribed guard of the effect cleanup,
part_002 lines 27-43): it then replaces the suggestion list wholesale and opens the
dropdown. Focus opens the dropdown; an outside interaction closes it; a pointer
activation of a rendered row commits it. -/
def step (s : CState) : Event → CState
  | .input q => stepInput s q
  | .resolve tok results =>
      match s.pending with
      | some p =>
          if p.tok = tok then
            { s with suggestions := results, showDropdown := true, pending := none }
          else s
      | none => s
  | .focus => { s with showDropdown := true, focused := true }
  | .outside => { s with showDropdown := false }
  | .key k => stepKey s k
  | .select i =>
      if s.showDropdown then
        match s.suggestions[i]? with
        | some user => selectUser s user.name
        | none => s
      else s

/-- The state after a sequence of events from the mount state. -/
def run (evts : List Event) : CState := evts.foldl step initState

/-- Subscription invariant: a live debounce subscription always carries the current
input text as its query. -/
def PendingInv (s : CState) : Prop :=
  ∀ p, s.pending = some p → p.query = s.searchTerm

/-- Cursor invariant claimed by the spec: the selection cursor lies within
[-1, length-1] of the current suggestion list. -/
@[reducible] def CursorInv (s : CState) : Prop :=
  -1 ≤ s.activeIndex ∧ s.activeIndex < (s.suggestions.length : Int)

/-! ### User directory source: the initial fetch (src/hooks/useUsers.ts lines
23-67). -/

/-- A JavaScript Error value: its name and message. -/
structure JsError where
  name : String
  message : String
  deriving DecidableEq

/-- The outcome of the awaited fetch: either a response with an HTTP status and a
parsed body, or a rejection (network failure, or abort with name AbortError). -/
inductive FetchOutcome
  | resolved (status : Nat) (data : List User)
  | rejected (err : JsError)
  deriving DecidableEq

/-- The state cells of useUsers touched by fetchUsers. -/
structure UsersState where
  allUsers : List User
  isLoading : Bool
  error : Option String
  deriving DecidableEq

/-- Whether the outcome is a failure in the sense of claim C8: a non-success HTTP
status or a rejection other than an abort. -/
def FetchOutcome.isFailure : FetchOutcome → Bool
  | .resolved status _ => !(200 ≤ status && status ≤ 299)
  | .rejected err => err.name != "AbortError"

/-- The try block of fetchUsers: a non-ok response raises
Error("HTTP error! status: ..."), a rejection of the awaited fetch propagates, an ok
response yields the parsed user list. -/
def fetchBody : FetchOutcome → Except JsError (List User)
  | .resolved status data =>
      if 200 ≤ status && status ≤ 299 then .ok data
      else .error ⟨"Error", "HTTP error! status: " ++ toString status⟩
  | .rejected err => .error err

/-- fetchUsers (src/hooks/useUsers.ts lines 24-58) run to completion on one fetch
outcome, starting from the empty user collection with isLoading set true and error
cleared: the catch swallows every raised error (recording its message unless it is
an AbortError), and the finally clears isLoading unless the signal was aborted. The
Except layer witnesses that no exception escapes the async function. -/
def fetchUsers (outcome : FetchOutcome) : Except JsError UsersState :=
  match fetchBody outcome with
  | .ok data => .ok ⟨data, false, none⟩
  | .error err =>
      if err.name == "AbortError" then .ok ⟨[], true, none⟩
      else .ok ⟨[], false,
        some (if err.message == "" then "Failed to fetch users" else err.message)⟩

/-! ### Outside-interaction detector (src/hooks/useOutsideClick.ts). -/

/-- ref.current.contains(target): on a null current this is the member access that
would raise a TypeError; the guard in handleClick must keep it unreached. -/
def refContains {α β : Type} (current : Option α) (contains : α → β → Bool)
    (target : β) : Except String Bool :=
  match current with
  | none => .error "TypeError: ref.current is null"
  | some root => .ok (contains root target)

/-- handleClick (src/hooks/useOutsideClick.ts lines 10-19) specialised to the
Autocomplete callback () => setShowDropdown(false): returns the dropdown flag after
the interaction, or an error if a null dereference were reached. The guard returns
early when the ref is empty or the hook is disabled; otherwise the handler fires
exactly when the target is outside the monitored region. -/
def handleClick {α β : Type} (current : Option α) (enabled : Bool)
    (contains : α → β → Bool) (target : β) (showDropdown : Bool) :
    Except String Bool :=
  if current.isNone || !enabled then .ok showDropdown
  else
    match refContains current contains target with
    | .error e => .error e
    | .ok inside => if !inside then .ok false else .ok showDropdown

/-! ### Concrete data used by counterexamples and witnesses. -/

/-- User with a two-word name, for the filter counterexamples. -/
def uTab : User := ⟨1, "alpha beta", "a@b.c", "bret"⟩

/-- User whose name and email abut, for the field-concatenation counterexample. -/
def uAb : User := ⟨2, "ab", "cd", "ef"⟩

/-- First demo user. -/
def uA : User := ⟨1, "Alfa", "alfa@example.com", "alfa"⟩

/-- Second demo user. -/
def uB : User := ⟨2, "Bravo", "bravo@example.com", "bravo"⟩

/-- Third demo user. -/
def uC : User := ⟨3, "Charlie", "charlie@example.com", "charlie"⟩

/-- Event trace for the C4 counterexample: results for the first query arrive and the
dropdown opens; a second query is typed; while its lookup is in flight the user
moves the cursor on the still-displayed old list; then the new (empty) result list
replaces the suggestions without the cursor being reset. -/
def c4Events : List Event :=
  [.input "a", .resolve 0 [uA, uB], .input "ab",
   .key .arrowDown, .key .arrowDown, .resolve 1 []]

/-- Events reaching the precondition of claim C6: dropdown open over three
suggestions with the cursor at the sentinel. -/
def c6Pre : List Event := [.input "x", .resolve 0 [uA, uB, uC]]

/-- The key presses of the C6 scenario. -/
def c6Keys : List Event := [.key .arrowDown, .key .arrowDown, .key .enter]

/-- Events reaching a state with the dropdown open and the cursor on a valid row,
ready for an Enter commit. -/
def c7Pre : List Event := [.input "x", .resolve 0 [uA], .key .arrowDown]

/-! ## Helper lemmas -/

theorem startsWith_iff (needle hay : List Char) :
    startsWith needle hay = true ↔ needle <+: hay := by
  induction needle generalizing hay with
  | nil => simp [startsWith, List.nil_prefix]
  | cons a as ih =>
    cases hay with
    | nil =>
        simp only [startsWith, Bool.false_eq_true, false_iff]
        intro h
        exact absurd (List.eq_nil_of_prefix_nil h) (by simp)
    | cons b bs =>
        constructor
        · intro h
          have hb : a = b := by
            have := (Bool.and_eq_true _ _).mp h
            exact eq_of_beq this.1
          have hp : as <+: bs := ih bs |>.mp ((Bool.and_eq_true _ _).mp h).2
          rcases hp with ⟨t, ht⟩
          exact ⟨t, by simp [hb, ht]⟩
        · intro h
          rcases h with ⟨t, ht⟩
          have hb : a = b := by
            have := congrArg (fun l => l.headI) ht
            simpa using this
          have hp : as ++ t = bs := by
            have := congrArg List.tail ht
            simpa using this
          simp [startsWith, hb, (ih bs).mpr ⟨t, hp⟩]

theorem includes_iff (hay needle : List Char) :
    includes hay needle = true ↔ needle <:+: hay := by
  induction hay with
  | nil =>
      simp only [includes, List.isEmpty_iff]
      constructor
      · intro h
        simp [h]
      · intro h
        rcases h with ⟨s, t, hst⟩
        have h1 := List.append_eq_nil.mp hst
        exact (List.append_eq_nil.mp h1.1).2
  | cons c rest ih =>
      simp only [includes, Bool.or_eq_true, startsWith_iff, ih]
      constructor
      · rintro (h | h)
        · rcases h with ⟨t, ht⟩
          exact ⟨[], t, by simp [ht]⟩
        · rcases h with ⟨s, t, hst⟩
          exact ⟨c :: s, t, by simp [hst]⟩
      · rintro ⟨s, t, hst⟩
        cases s with
        | nil =>
            left
            exact ⟨t, by simpa using hst⟩
        | cons s0 ss =>
            right
            have : ss ++ needle ++ t = rest := by
              have := congrArg List.tail hst
              simpa using this
            exact ⟨ss, t, this⟩

theorem includes_nil (hay : List Char) : includes hay [] = true := by
  cases hay with
  | nil => rfl
  | cons c rest => simp [includes, startsWith]

theorem mem_flatten_isInfix {α : Type} {L : List (List α)} {l : List α}
    (h : l ∈ L) : l <:+: L.flatten := by
  induction L with
  | nil => cases h
  | cons x xs ih =>
      rcases List.mem_cons.mp h with h | h
      · exact ⟨[], xs.flatten, by simp [h]⟩
      · rcases ih h with ⟨s, t, hst⟩
        exact ⟨x ++ s, t, by simp [← hst]⟩

theorem lower_isInfix {l t : List Char} (h : l <:+: t) : lower l <:+: lower t := by
  rcases h with ⟨s, u, hsu⟩
  exact ⟨lower s, lower u, by simp [lower, ← hsu]⟩

theorem splitParts_flatten (query : List Char) (fuel : Nat) :
    ∀ (text acc : List Char),
      (splitParts query fuel text acc).flatten = acc.reverse ++ text := by
  induction fuel with
  | zero => intro text acc; simp [splitParts]
  | succ n ih =>
      intro text acc
      cases text with
      | nil => simp [splitParts]
      | cons c rest =>
          by_cases h : ciMatchesAt query (c :: rest) = true
          · simp only [splitParts, h, if_true, List.flatten_cons, ih,
              List.reverse_nil, List.nil_append]
            rw [← List.append_assoc, List.append_assoc _ _ (List.drop _ _),
              List.take_append_drop]
          · simp only [splitParts, h, if_false, Bool.false_eq_true, ih,
              List.reverse_cons, List.append_assoc, List.cons_append,
              List.nil_append]

/-! ## Claims C2 and C3: the directory filter -/

/-- Claim C2 is false as stated: filterUsers splits the query on single space
characters only, not on all whitespace (a tab does not separate terms), and it
matches terms against the fields joined with spaces, not against their plain
concatenation. `filterUsersClaim` is the filter as the claim words it; the two
disagree on a tab-separated query and on a term spanning a field boundary. -/
theorem c2_counterexample :
    filterUsers [uTab] "alpha\tbeta" ≠ filterUsersClaim [uTab] "alpha\tbeta" ∧
    filterUsers [uAb] "bcd" ≠ filterUsersClaim [uAb] "bcd" := by
  decide

/-- Claim C2 (amended): for every user collection and query, filterUsers returns
exactly the records whose searchable text — name, email and username joined with
single spaces and lowercased — contains every term produced by splitting the
lowercased query on single space characters: every returned record satisfies all
terms and every record satisfying all terms is returned, in order. -/
theorem c2_filterUsers_exact (allUsers : List User) (query : String) (u : User) :
    u ∈ filterUsers allUsers query ↔
      u ∈ allUsers ∧
        ∀ term ∈ (lower query.data).splitOn ' ', term <:+: searchableText u := by
  simp [filterUsers, List.mem_filter, List.all_eq_true, includes_iff]

/-- Claim C3 is false as stated: on the empty query the split produces the single
empty term, the empty term occurs in every searchable text, and so filterUsers
returns the whole collection rather than the empty set. -/
theorem c3_counterexample : filterUsers [uTab] "" ≠ [] := by decide

/-- Claim C3 (amended): filterUsers applied to the empty query returns the entire
user collection (the single empty search term matches every record); the empty-set
behaviour the spec stipulates never materialises because the controller clears the
suggestions itself on blank input instead of calling the filter. -/
theorem c3_empty_query (allUsers : List User) :
    filterUsers allUsers "" = allUsers := by
  have hterms : (lower "".data).splitOn ' ' = [[]] := rfl
  unfold filterUsers
  rw [hterms]
  refine List.filter_eq_self.mpr (fun u _ => ?_)
  simp [includes_nil]

/-! ## Claims C5 and C10: the match highlighter -/

/-- Claim C5: for every text and every query, concatenating the segment contents
produced by the highlighter yields the text back exactly — no characters are lost,
duplicated or case-altered, whether the query is blank (single plain segment) or the
text is split around its occurrences. -/
theorem c5_highlight_preserves_text (text query : List Char) :
    ((highlightSegments text query).map Segment.content).flatten = text := by
  unfold highlightSegments
  by_cases h : query.all Char.isWhitespace = true
  · rw [if_pos h]
    simp
  · rw [if_neg h, List.map_map,
      show (Segment.content ∘ fun part => Segment.mk part (lower part == lower query))
        = id from rfl,
      List.map_id, splitParts_flatten]
    simp

/-- Claim C10: for a query with at least one non-whitespace character, the
highlighter marks only occurrences of the entire query as one literal case
insensitive substring: every matched segment is case-insensitively equal to the
whole query, and when the lowercased query does not occur in the lowercased text at
all — as for a multi-term query whose words occur only apart — no segment is marked.
-/
theorem c10_matched_is_whole_query (text query : List Char)
    (h : query.all Char.isWhitespace = false) :
    ((highlightSegments text query).all
        (fun seg => !seg.matched || (lower seg.content == lower query)) = true) ∧
      (includes (lower text) (lower query) = false →
        (highlightSegments text query).all (fun seg => !seg.matched) = true) := by
  constructor
  · rw [List.all_eq_true]
    intro seg hseg
    unfold highlightSegments at hseg
    rw [h] at hseg
    simp only [Bool.false_eq_true, if_false, List.mem_map] at hseg
    rcases hseg with ⟨part, _, rfl⟩
    cases hm : (lower part == lower query) <;> simp [hm]
  · intro hni
    rw [List.all_eq_true]
    intro seg hseg
    unfold highlightSegments at hseg
    rw [h] at hseg
    simp only [Bool.false_eq_true, if_false, List.mem_map] at hseg
    rcases hseg with ⟨part, hpart, rfl⟩
    simp only [Bool.not_eq_eq_eq_not, Bool.not_true]
    by_contra hm
    have hmeq : lower part = lower query := by
      have : (lower part == lower query) = true := by
        cases hval : (lower part == lower query)
        · exact absurd (by simp [hval]) hm
        · rfl
      exact eq_of_beq this
    have hinf : part <:+: text := by
      have := mem_flatten_isInfix hpart
      rwa [splitParts_flatten, List.reverse_nil, List.nil_append] at this
    have : lower query <:+: lower text := hmeq ▸ lower_isInfix hinf
    rw [← includes_iff (lower text) (lower query)] at this
    exact absurd this (by simp [hni])

/-- Witness for claim C10 at a concrete input: the two words of the query occur in
the text but not adjacently, so no segment is marked. -/
theorem c10_witness :
    (highlightSegments "alpha z beta".data "alpha beta".data).all
      (fun seg => !seg.matched) = true :=
  (c10_matched_is_whole_query "alpha z beta".data "alpha beta".data (by decide)).2
    (by decide)

/-! ## Controller helper lemmas -/

theorem pendingInv_applySearchEffect (s : CState) :
    PendingInv (applySearchEffect s) := by
  unfold applySearchEffect
  split
  · intro p hp; cases hp
  · intro p hp; cases hp; rfl

theorem pendingInv_selectUser {s : CState} (h : PendingInv s) (name : String) :
    PendingInv (selectUser s name) := by
  unfold selectUser
  split
  next he =>
    intro p hp
    have hq := h p hp
    show p.query = name
    rw [hq, he]
  next => exact pendingInv_applySearchEffect _

theorem pendingInv_stepInput {s : CState} (h : PendingInv s) (q : String) :
    PendingInv (stepInput s q) := by
  unfold stepInput
  split
  next hq =>
    intro p hp
    have hqq := h p hp
    show p.query = q
    rw [hqq, hq]
  next => exact pendingInv_applySearchEffect _

theorem pendingInv_step {s : CState} (h : PendingInv s) (e : Event) :
    PendingInv (step s e) := by
  cases e with
  | input q => exact pendingInv_stepInput h q
  | resolve tok results =>
      simp only [step]
      split
      next p hp =>
        split
        · intro p2 hp2; cases hp2
        · exact h
      next => exact h
  | focus => intro p hp; exact h p hp
  | outside => intro p hp; exact h p hp
  | key k =>
      simp only [step, stepKey]
      split
      · exact h
      · split
        · intro p hp; exact h p hp
        · intro p hp; exact h p hp
        · split
          · split
            next u hu => exact pendingInv_selectUser h u.name
            next => exact h
          · exact h
        · intro p hp; exact h p hp
  | select i =>
      simp only [step]
      split
      · split
        next u hu => exact pendingInv_selectUser h u.name
        next => exact h
      · exact h

theorem pendingInv_run (evts : List Event) : PendingInv (run evts) := by
  have hgen : ∀ (l : List Event) (s : CState),
      PendingInv s → PendingInv (l.foldl step s) := by
    intro l
    induction l with
    | nil => intro s hs; exact hs
    | cons e rest ih => intro s hs; exact ih _ (pendingInv_step hs e)
  exact hgen evts initState (fun p hp => by cases hp)

theorem selectUser_fields (s : CState) (name : String) :
    (selectUser s name).searchTerm = name ∧ (selectUser s name).showDropdown = false ∧
      (selectUser s name).activeIndex = -1 ∧ (selectUser s name).focused = false := by
  unfold selectUser applySearchEffect
  dsimp only
  split
  · exact ⟨rfl, rfl, rfl, rfl⟩
  · split
    · exact ⟨rfl, rfl, rfl, rfl⟩
    · exact ⟨rfl, rfl, rfl, rfl⟩

theorem cursorInv_selectUser (s : CState) (name : String) :
    CursorInv (selectUser s name) := by
  rcases selectUser_fields s name with ⟨-, -, h3, -⟩
  constructor
  · rw [h3]
  · rw [h3]
    omega

theorem stepInput_fields (s : CState) (q : String) :
    (stepInput s q).activeIndex = -1 ∧
      ((stepInput s q).suggestions = s.suggestions ∨ (stepInput s q).suggestions = []) := by
  unfold stepInput applySearchEffect
  dsimp only
  split
  · exact ⟨rfl, Or.inl rfl⟩
  · split
    · exact ⟨rfl, Or.inr rfl⟩
    · exact ⟨rfl, Or.inl rfl⟩

theorem step_resolve_activeIndex (s : CState) (tok : Nat) (results : List User) :
    (step s (.resolve tok results)).activeIndex = s.activeIndex := by
  simp only [step]
  split
  · split <;> rfl
  · rfl

/-! ## Claim C1: stale debounced lookups are discarded -/

/-- Claim C1: whenever a lookup completion event actually changes the suggestion
list held by the controller, the lookup it completes is the live subscription and
its originating query is exactly the current input text — so a lookup whose query
has been superseded (its subscription token cancelled by the effect cleanup) can
never overwrite the suggestion list. -/
theorem c1_stale_lookup_discarded (evts : List Event) (tok : Nat) (results : List User)
    (h : (step (run evts) (.resolve tok results)).suggestions ≠ (run evts).suggestions) :
    ∃ p, (run evts).pending = some p ∧ p.tok = tok ∧
      p.query = (run evts).searchTerm := by
  have hinv := pendingInv_run evts
  cases hp : (run evts).pending with
  | none =>
      exfalso
      apply h
      simp [step, hp]
  | some p =>
      by_cases ht : p.tok = tok
      · exact ⟨p, rfl, ht, hinv p hp⟩
      · exfalso
        apply h
        simp [step, hp, ht]

/-- Witness for claim C1: typing a non-blank query issues a live subscription whose
recorded query is the current text, so its own resolution is the only one that can
update the list. -/
theorem c1_witness :
    ∃ p, (run [Event.input "a"]).pending = some p ∧ p.tok = 0 ∧
      p.query = (run [Event.input "a"]).searchTerm :=
  c1_stale_lookup_discarded [Event.input "a"] 0 [uA] (by decide)

/-! ## Claim C4: the selection cursor -/

/-- Claim C4 is false as stated: after results for the first query opened the
dropdown, the user types again and moves the cursor on the still-displayed old list
while the new lookup is in flight; when the new (empty) result list replaces the
suggestions, the cursor is not reset to the sentinel and ends up outside
[-1, length-1] of the current list. -/
theorem c4_counterexample :
    ¬ CursorInv (run c4Events) ∧ (run c4Events).activeIndex = 1 ∧
      (run c4Events).suggestions = [] := by
  decide

/-- Claim C4 (amended): the cursor never goes below the -1 sentinel under any
transition, and every transition other than a debounce resolution keeps it within
[-1, length-1] of the current suggestion list; but a debounce resolution that
replaces the suggestion list leaves the cursor untouched rather than resetting it,
so it can land beyond the bounds of the new list (the Enter guard keeps such a
stale cursor from committing). -/
theorem c4_cursor_invariant (s : CState) (e : Event) :
    (-1 ≤ s.activeIndex → -1 ≤ (step s e).activeIndex) ∧
      (CursorInv s → e.isResolve = false → CursorInv (step s e)) ∧
      (∀ tok results, (step s (.resolve tok results)).activeIndex = s.activeIndex) := by
  refine ⟨?_, ?_, fun tok results => step_resolve_activeIndex s tok results⟩
  · intro h
    obtain ⟨st, sug, sd, ai, pend, nt, fo⟩ := s
    replace h : -1 ≤ ai := h
    cases e with
    | input q =>
        rcases stepInput_fields ⟨st, sug, sd, ai, pend, nt, fo⟩ q with ⟨h1, -⟩
        show -1 ≤ (stepInput ⟨st, sug, sd, ai, pend, nt, fo⟩ q).activeIndex
        rw [h1]
    | resolve tok results =>
        rw [step_resolve_activeIndex]
        exact h
    | focus => exact h
    | outside => exact h
    | key k =>
        cases sd with
        | false => exact h
        | true =>
            cases k with
            | arrowDown =>
                show -1 ≤ (if ai < (sug.length : Int) - 1 then ai + 1 else ai)
                split <;> omega
            | arrowUp =>
                show -1 ≤ (if ai > 0 then ai - 1 else -1)
                split <;> omega
            | enter =>
                show -1 ≤ (if 0 ≤ ai then
                    (match sug[ai.toNat]? with
                      | some user =>
                          selectUser ⟨st, sug, true, ai, pend, nt, fo⟩ user.name
                      | none => ⟨st, sug, true, ai, pend, nt, fo⟩)
                  else (⟨st, sug, true, ai, pend, nt, fo⟩ : CState)).activeIndex
                by_cases h0 : (0 : Int) ≤ ai
                · rw [if_pos h0]
                  cases hg : sug[ai.toNat]? with
                  | none => exact h
                  | some u =>
                      show -1 ≤ (selectUser ⟨st, sug, true, ai, pend, nt, fo⟩
                        u.name).activeIndex
                      rcases selectUser_fields ⟨st, sug, true, ai, pend, nt, fo⟩
                        u.name with ⟨-, -, h3, -⟩
                      rw [h3]
                · rw [if_neg h0]
                  exact h
            | escape => show (-1 : Int) ≤ -1; omega
    | select i =>
        cases sd with
        | false => exact h
        | true =>
            show -1 ≤ (match sug[i]? with
              | some user => selectUser ⟨st, sug, true, ai, pend, nt, fo⟩ user.name
              | none => (⟨st, sug, true, ai, pend, nt, fo⟩ : CState)).activeIndex
            cases hg : sug[i]? with
            | none => exact h
            | some u =>
                show -1 ≤ (selectUser ⟨st, sug, true, ai, pend, nt, fo⟩
                  u.name).activeIndex
                rcases selectUser_fields ⟨st, sug, true, ai, pend, nt, fo⟩ u.name
                  with ⟨-, -, h3, -⟩
                rw [h3]
  · intro hInv hNe
    obtain ⟨st, sug, sd, ai, pend, nt, fo⟩ := s
    obtain ⟨hl, hr⟩ := hInv
    replace hl : -1 ≤ ai := hl
    replace hr : ai < (sug.length : Int) := hr
    cases e with
    | input q =>
        rcases stepInput_fields ⟨st, sug, sd, ai, pend, nt, fo⟩ q with ⟨h1, h2⟩
        show CursorInv (stepInput ⟨st, sug, sd, ai, pend, nt, fo⟩ q)
        refine ⟨by rw [h1], ?_⟩
        rw [h1]
        rcases h2 with h2 | h2 <;> rw [h2]
        · dsimp only
          omega
        · decide
    | resolve tok results => simp [Event.isResolve] at hNe
    | focus => exact ⟨hl, hr⟩
    | outside => exact ⟨hl, hr⟩
    | key k =>
        cases sd with
        | false => exact ⟨hl, hr⟩
        | true =>
            cases k with
            | arrowDown =>
                show CursorInv ⟨st, sug, true,
                  if ai < (sug.length : Int) - 1 then ai + 1 else ai, pend, nt, fo⟩
                refine ⟨?_, ?_⟩ <;> (dsimp only; split <;> omega)
            | arrowUp =>
                show CursorInv ⟨st, sug, true,
                  if ai > 0 then ai - 1 else -1, pend, nt, fo⟩
                refine ⟨?_, ?_⟩ <;> (dsimp only; split <;> omega)
            | enter =>
                show CursorInv (if 0 ≤ ai then
                    (match sug[ai.toNat]? with
                      | some user =>
                          selectUser ⟨st, sug, true, ai, pend, nt, fo⟩ user.name
                      | none => ⟨st, sug, true, ai, pend, nt, fo⟩)
                  else (⟨st, sug, true, ai, pend, nt, fo⟩ : CState))
                by_cases h0 : (0 : Int) ≤ ai
                · rw [if_pos h0]
                  cases hg : sug[ai.toNat]? with
                  | none => exact ⟨hl, hr⟩
                  | some u =>
                      exact cursorInv_selectUser ⟨st, sug, true, ai, pend, nt, fo⟩
                        u.name
                · rw [if_neg h0]
                  exact ⟨hl, hr⟩
            | escape =>
                show CursorInv ⟨st, sug, false, -1, pend, nt, fo⟩
                refine ⟨?_, ?_⟩ <;> (dsimp only; omega)
    | select i =>
        cases sd with
        | false => exact ⟨hl, hr⟩
        | true =>
            show CursorInv (match sug[i]? with
              | some user => selectUser ⟨st, sug, true, ai, pend, nt, fo⟩ user.name
              | none => (⟨st, sug, true, ai, pend, nt, fo⟩ : CState))
            cases hg : sug[i]? with
            | none => exact ⟨hl, hr⟩
            | some u =>
                exact cursorInv_selectUser ⟨st, sug, true, ai, pend, nt, fo⟩ u.name

/-- Witness for the amended claim C4 at a concrete transition. -/
theorem c4_witness : CursorInv (step initState Event.focus) :=
  (c4_cursor_invariant initState Event.focus).2.1 (by decide) (by decide)

/-! ## Claims C6 and C7: keyboard commit -/

/-- Claim C6 is false as stated: from the -1 sentinel, the first ArrowDown moves the
cursor to index 0 and the second to index 1, so Enter commits the second suggestion
from the top, not the one at index 2. The trace below starts exactly in the state
the claim describes (dropdown open, three suggestions, cursor at the sentinel). -/
theorem c6_counterexample :
    (run c6Pre).showDropdown = true ∧ (run c6Pre).activeIndex = -1 ∧
      (run c6Pre).suggestions.length = 3 ∧
      (c6Keys.foldl step (run c6Pre)).searchTerm = uB.name ∧
      (c6Keys.foldl step (run c6Pre)).searchTerm ≠ uC.name := by
  decide

/-- Claim C6 (amended): in every state with the dropdown open, the cursor at the -1
sentinel and at least two suggestions, pressing ArrowDown twice and then Enter sets
the query text to the display name of the suggestion at index 1 (second from top),
closes the dropdown and resets the cursor. -/
theorem c6_arrowdown_twice_enter (s : CState) (hOpen : s.showDropdown = true)
    (hCur : s.activeIndex = -1) (hLen : 2 ≤ s.suggestions.length) :
    ∃ u, s.suggestions[1]? = some u ∧
      (c6Keys.foldl step s).searchTerm = u.name ∧
      (c6Keys.foldl step s).showDropdown = false ∧
      (c6Keys.foldl step s).activeIndex = -1 := by
  obtain ⟨st, sug, sd, ai, pend, nt, fo⟩ := s
  replace hOpen : sd = true := hOpen
  replace hCur : ai = -1 := hCur
  replace hLen : 2 ≤ sug.length := hLen
  subst hOpen hCur
  obtain ⟨u, hu⟩ : ∃ x, sug[(1 : Int).toNat]? = some x :=
    ⟨_, List.getElem?_eq_getElem (by omega)⟩
  have e1 : step (⟨st, sug, true, -1, pend, nt, fo⟩ : CState) (.key .arrowDown) =
      ⟨st, sug, true, 0, pend, nt, fo⟩ := by
    show (⟨st, sug, true,
      if (-1 : Int) < (sug.length : Int) - 1 then -1 + 1 else -1,
      pend, nt, fo⟩ : CState) = _
    rw [if_pos (show (-1 : Int) < (sug.length : Int) - 1 by omega)]
    norm_num
  have e2 : step (⟨st, sug, true, 0, pend, nt, fo⟩ : CState) (.key .arrowDown) =
      ⟨st, sug, true, 1, pend, nt, fo⟩ := by
    show (⟨st, sug, true,
      if (0 : Int) < (sug.length : Int) - 1 then 0 + 1 else 0,
      pend, nt, fo⟩ : CState) = _
    rw [if_pos (show (0 : Int) < (sug.length : Int) - 1 by omega)]
    norm_num
  have e3 : step (⟨st, sug, true, 1, pend, nt, fo⟩ : CState) (.key .enter) =
      selectUser ⟨st, sug, true, 1, pend, nt, fo⟩ u.name := by
    show (if (0 : Int) ≤ 1 then
        (match sug[(1 : Int).toNat]? with
          | some user => selectUser ⟨st, sug, true, 1, pend, nt, fo⟩ user.name
          | none => ⟨st, sug, true, 1, pend, nt, fo⟩)
      else (⟨st, sug, true, 1, pend, nt, fo⟩ : CState)) = _
    rw [if_pos (show (0 : Int) ≤ 1 by omega), hu]
  have hfold : c6Keys.foldl step (⟨st, sug, true, -1, pend, nt, fo⟩ : CState) =
      selectUser ⟨st, sug, true, 1, pend, nt, fo⟩ u.name := by
    show step (step (step (⟨st, sug, true, -1, pend, nt, fo⟩ : CState)
      (.key .arrowDown)) (.key .arrowDown)) (.key .enter) = _
    rw [e1, e2, e3]
  rcases selectUser_fields (⟨st, sug, true, 1, pend, nt, fo⟩ : CState) u.name
    with ⟨f1, f2, f3, -⟩
  exact ⟨u, hu, by rw [hfold, f1], by rw [hfold, f2], by rw [hfold, f3]⟩

/-- Witness for the amended claim C6 on a concrete reachable state. -/
theorem c6_witness :
    ∃ u, (run c6Pre).suggestions[1]? = some u ∧
      (c6Keys.foldl step (run c6Pre)).searchTerm = u.name ∧
      (c6Keys.foldl step (run c6Pre)).showDropdown = false ∧
      (c6Keys.foldl step (run c6Pre)).activeIndex = -1 :=
  c6_arrowdown_twice_enter (run c6Pre) (by decide) (by decide) (by decide)

/-- Claim C7: in every state with the dropdown open and the cursor a valid index
into the current suggestion list, Enter commits the selection: the query text
becomes the selected record display name, the dropdown closes, the cursor returns
to the -1 sentinel, and input focus is removed. -/
theorem c7_enter_commits (s : CState) (hOpen : s.showDropdown = true)
    (h0 : 0 ≤ s.activeIndex) (hLt : s.activeIndex < (s.suggestions.length : Int)) :
    ∃ u, s.suggestions[s.activeIndex.toNat]? = some u ∧
      (step s (.key .enter)).searchTerm = u.name ∧
      (step s (.key .enter)).showDropdown = false ∧
      (step s (.key .enter)).activeIndex = -1 ∧
      (step s (.key .enter)).focused = false := by
  obtain ⟨st, sug, sd, ai, pend, nt, fo⟩ := s
  replace hOpen : sd = true := hOpen
  replace h0 : (0 : Int) ≤ ai := h0
  replace hLt : ai < (sug.length : Int) := hLt
  subst hOpen
  obtain ⟨u, hu⟩ : ∃ x, sug[ai.toNat]? = some x :=
    ⟨_, List.getElem?_eq_getElem (by omega)⟩
  have he : step (⟨st, sug, true, ai, pend, nt, fo⟩ : CState) (.key .enter) =
      selectUser ⟨st, sug, true, ai, pend, nt, fo⟩ u.name := by
    show (if 0 ≤ ai then
        (match sug[ai.toNat]? with
          | some user => selectUser ⟨st, sug, true, ai, pend, nt, fo⟩ user.name
          | none => ⟨st, sug, true, ai, pend, nt, fo⟩)
      else (⟨st, sug, true, ai, pend, nt, fo⟩ : CState)) = _
    rw [if_pos h0, hu]
  rcases selectUser_fields (⟨st, sug, true, ai, pend, nt, fo⟩ : CState) u.name
    with ⟨f1, f2, f3, f4⟩
  exact ⟨u, hu, by rw [he, f1], by rw [he, f2], by rw [he, f3], by rw [he, f4]⟩

/-- Witness for claim C7 on a concrete reachable state with the cursor on row 0. -/
theorem c7_witness :
    ∃ u, (run c7Pre).suggestions[(run c7Pre).activeIndex.toNat]? = some u ∧
      (step (run c7Pre) (.key .enter)).searchTerm = u.name ∧
      (step (run c7Pre) (.key .enter)).showDropdown = false ∧
      (step (run c7Pre) (.key .enter)).activeIndex = -1 ∧
      (step (run c7Pre) (.key .enter)).focused = false :=
  c7_enter_commits (run c7Pre) (by decide) (by decide) (by decide)

/-! ## Claim C8: initial fetch failure -/

/-- Claim C8: whenever the initial user fetch fails — a non-success HTTP status or a
rejection other than an abort — fetchUsers completes with the error message set, the
loading flag false and the user collection still empty, and no exception escapes to
the caller (the run is an ok value of the Except layer). -/
theorem c8_fetch_failure (o : FetchOutcome) (h : o.isFailure = true) :
    ∃ st, fetchUsers o = .ok st ∧ st.allUsers = [] ∧ st.isLoading = false ∧
      st.error.isSome = true := by
  cases o with
  | resolved status data =>
      have h2 : (!(decide (200 ≤ status) && decide (status ≤ 299))) = true := h
      have hst : (decide (200 ≤ status) && decide (status ≤ 299)) = false := by
        cases hb : (decide (200 ≤ status) && decide (status ≤ 299)) with
        | false => rfl
        | true => rw [hb] at h2; exact Bool.noConfusion h2
      refine ⟨⟨[], false,
        some (if ("HTTP error! status: " ++ toString status) == ""
          then "Failed to fetch users"
          else "HTTP error! status: " ++ toString status)⟩, ?_, rfl, rfl, rfl⟩
      unfold fetchUsers fetchBody
      dsimp only
      rw [hst]
      rfl
  | rejected err =>
      have h2 : (!(err.name == "AbortError")) = true := h
      have hname : (err.name == "AbortError") = false := by
        cases hb : (err.name == "AbortError") with
        | false => rfl
        | true => rw [hb] at h2; exact Bool.noConfusion h2
      refine ⟨⟨[], false,
        some (if err.message == "" then "Failed to fetch users"
          else err.message)⟩, ?_, rfl, rfl, rfl⟩
      unfold fetchUsers fetchBody
      dsimp only
      rw [hname]
      rfl

/-- Witness for claim C8 on a concrete failing outcome (HTTP 500 whose body is
discarded). -/
theorem c8_witness :
    ∃ st, fetchUsers (.resolved 500 [uA]) = .ok st ∧ st.allUsers = [] ∧
      st.isLoading = false ∧ st.error.isSome = true :=
  c8_fetch_failure (.resolved 500 [uA]) (by decide)

/-! ## Claim C9: outside interaction -/

/-- Claim C9: for every configuration of the outside-interaction handler, the run
never raises (the null-ref dereference is unreachable behind the guard), and for
every interaction whose target is not contained in the present monitored region,
with the hook enabled, the dropdown transitions to closed. -/
theorem c9_outside_click {α β : Type} (current : Option α) (enabled : Bool)
    (contains : α → β → Bool) (target : β) (showDropdown : Bool) :
    (∃ b, handleClick current enabled contains target showDropdown = .ok b) ∧
      (∀ root, current = some root → enabled = true → contains root target = false →
        handleClick current enabled contains target showDropdown = .ok false) := by
  constructor
  · cases current with
    | none => exact ⟨showDropdown, by simp [handleClick]⟩
    | some root =>
        cases enabled with
        | false => exact ⟨showDropdown, by simp [handleClick]⟩
        | true =>
            cases hc : contains root target with
            | false => exact ⟨false, by simp [handleClick, refContains, hc]⟩
            | true => exact ⟨showDropdown, by simp [handleClick, refContains, hc]⟩
  · rintro root rfl htrue hc
    subst htrue
    simp [handleClick, refContains, hc]

/-- Witness for claim C9 at a concrete region and target lying outside it. -/
theorem c9_witness :
    handleClick (some 0) true (fun (_ : Nat) (_ : Nat) => false) 0 true =
      .ok false :=
  (c9_outside_click (some 0) true (fun _ _ => false) 0 true).2 0 rfl rfl rfl

end Autocomplete
